import Mathlib

/-!
Shallow embedding of the Tauri coordination layer in src/src-tauri/src/lib.rs:
the command surface (append_event, get_cas_content), the bootstrap section of
initialize_store (lines 100-144) and the replay streamer
stream_existing_events (lines 160-178).  The xs store collaborator (frame log
plus content-addressable store), ssri integrity hashes and the UTF-8 byte
level are external libraries; they are modelled by executable definitions
realising the collaborator contract of the spec: ideal collision-free content
addressing, and byte strings partitioned into valid and invalid UTF-8.
Fallible external calls (CAS insert, log append, subscriber emit) take their
outcome from an explicit environment so that every error path of the source
is reachable in the model.
-/

/-- Model of a Rust byte string (a Vec of u8).  Byte strings partition into
the valid UTF-8 sequences, in bijection with String via String::into_bytes,
and the invalid ones; ofString covers the first class and invalid (indexed
by an arbitrary tag) the second. -/
inductive Bytes where
  | ofString (s : String) : Bytes
  | invalid (tag : String) : Bytes
deriving DecidableEq

/-- Model of String::from_utf8 (lib.rs line 76): recovers the string from a
valid UTF-8 byte string and fails on an invalid one. -/
def bytes_to_string : Bytes → Except String String
  | Bytes.ofString s => Except.ok s
  | Bytes.invalid _ => Except.error "invalid utf-8 sequence"

/-- Model of an ssri integrity hash: an ideal collision-free content address,
identified with the byte string it addresses (per the spec, insert is a pure
function of content and identical bytes always yield the same key). -/
structure Integrity where
  content : Bytes
deriving DecidableEq

/-- Model of the CAS insert collaborator operation (spec section 6):
content-addressed and idempotent, returning the integrity key of the
bytes together with the updated CAS contents. -/
def cas_insert (cas : List Bytes) (b : Bytes) : Integrity × List Bytes :=
  (⟨b⟩, if b ∈ cas then cas else cas ++ [b])

/-- Model of the CAS read collaborator operation (spec section 6): fails
when the addressed entry is absent. -/
def cas_read (cas : List Bytes) (h : Integrity) : Except String Bytes :=
  if h.content ∈ cas then Except.ok h.content else Except.error "content not found"

/-- JSON values carried in frame metadata, modelled opaquely by their
serialised text: no operation in scope inspects them. -/
abbrev JsonValue := String

/-- Model of the serde_json object value produced at lib.rs line 48. -/
inductive Json where
  | obj (fields : List (String × JsonValue)) : Json
deriving DecidableEq

/-- The reserved system context (xs ZERO_CONTEXT), modelled as 0. -/
def ZERO_CONTEXT : Nat := 0

/-- Frame record of the xs store as used in lib.rs; scru128 ids are
modelled as Nat. -/
structure Frame where
  id : Nat
  contextId : Nat
  topic : String
  hash : Option Integrity
  meta : Option Json
  ttl : Option Nat
deriving DecidableEq

/-- The store state behind the shared handle: the CAS contents and the
append-only frame log. -/
structure Store where
  cas : List Bytes
  log : List Frame
deriving DecidableEq

/-- The append_event request payload (lib.rs lines 11-16). -/
structure AppendRequest where
  topic : String
  content : String
  meta : Option (List (String × JsonValue))
deriving DecidableEq

/-- Outcomes of the fallible external calls made during one append_event
invocation: for each call, none means success and some e failure with
message e. -/
structure Env where
  casInsertErr : Option String
  appendErr : Option String
  emitErr : Option String
deriving DecidableEq

/-- The environment in which every external call succeeds. -/
def allOkEnv : Env := ⟨none, none, none⟩

/-- Frame built at lib.rs lines 41-50. -/
def mk_frame (request : AppendRequest) (frameId : Nat) (hash : Option Integrity) : Frame :=
  { id := frameId, contextId := ZERO_CONTEXT, topic := request.topic,
    hash := hash, meta := request.meta.map Json.obj, ttl := none }

/-- Emit step of append_event (lib.rs lines 56-58) followed by the final
return (line 60): an emit failure is surfaced with its map_err message. -/
def emit_stage (env : Env) (st : Store) (emitted : List Frame) (frame : Frame) (frameId : Nat) :
    Except String String × Store × List Frame :=
  match env.emitErr with
  | some e => (Except.error ("Failed to emit frame: " ++ e), st, emitted)
  | none => (Except.ok (toString frameId), st, emitted ++ [frame])

/-- Append step of append_event (lib.rs lines 52-54): on success the frame
joins the log and the emit step runs. -/
def append_stage (env : Env) (st : Store) (emitted : List Frame) (frame : Frame) (frameId : Nat) :
    Except String String × Store × List Frame :=
  match env.appendErr with
  | some e => (Except.error ("Failed to append frame: " ++ e), st, emitted)
  | none => emit_stage env { st with log := st.log ++ [frame] } emitted frame frameId

/-- The append_event command (lib.rs lines 18-61), as a state transformer on
the store and on the list of frames emitted to the subscriber sink: insert
non-empty content into the CAS first, then build the frame, append it and
emit it; each fallible step returns early with its map_err message. -/
def append_event (env : Env) (st : Store) (emitted : List Frame)
    (request : AppendRequest) (frameId : Nat) :
    Except String String × Store × List Frame :=
  if request.content = "" then
    append_stage env st emitted (mk_frame request frameId none) frameId
  else
    match env.casInsertErr with
    | some e => (Except.error ("Failed to insert content: " ++ e), st, emitted)
    | none =>
      let ins := cas_insert st.cas (Bytes.ofString request.content)
      append_stage env { st with cas := ins.2 } emitted
        (mk_frame request frameId (some ins.1)) frameId

/-- Model of the string argument of get_cas_content: ssri hash strings
partition into those that parse as an Integrity and the malformed ones. -/
inductive HashStr where
  | wellFormed (h : Integrity) : HashStr
  | malformed (s : String) : HashStr
deriving DecidableEq

/-- Model of parsing an ssri Integrity from a string (lib.rs lines 67-69). -/
def parse_integrity : HashStr → Except String Integrity
  | HashStr.wellFormed h => Except.ok h
  | HashStr.malformed _ => Except.error "invalid ssri string"

/-- The get_cas_content command (lib.rs lines 63-77): parse the hash, read
the CAS entry, decode the bytes as UTF-8; each failure returns early with
its map_err message.  The store is returned unchanged alongside the
result. -/
def get_cas_content (st : Store) (hash : HashStr) : Except String String × Store :=
  match parse_integrity hash with
  | Except.error e => (Except.error ("Invalid hash format: " ++ e), st)
  | Except.ok integrity =>
    match cas_read st.cas integrity with
    | Except.error e => (Except.error ("Failed to read content: " ++ e), st)
    | Except.ok content =>
      match bytes_to_string content with
      | Except.error e => (Except.error ("Invalid UTF-8 content: " ++ e), st)
      | Except.ok s => (Except.ok s, st)

/-- The hash string is malformed (never parses as an Integrity). -/
def is_malformed : HashStr → Bool
  | HashStr.wellFormed _ => false
  | HashStr.malformed _ => true

/-- The hash parses but the addressed CAS entry is absent. -/
def hash_entry_absent (st : Store) : HashStr → Bool
  | HashStr.wellFormed h => !(decide (h.content ∈ st.cas))
  | HashStr.malformed _ => false

/-- The hash parses, the addressed CAS entry is present, but its bytes are
not valid UTF-8. -/
def hash_entry_undecodable (st : Store) : HashStr → Bool
  | HashStr.wellFormed h =>
    decide (h.content ∈ st.cas) &&
      (match h.content with
       | Bytes.invalid _ => true
       | Bytes.ofString _ => false)
  | HashStr.malformed _ => false

/-- Sentinel genesis frame built at lib.rs lines 118-125. -/
def yak_frame (freshId : Nat) : Frame :=
  { id := freshId, contextId := ZERO_CONTEXT, topic := "yak.create",
    hash := none, meta := none, ttl := none }

/-- Scan loop of initialize_store (lib.rs lines 107-113): a snapshot read of
the log, stopping at the first frame with the sentinel topic. -/
def has_yak : List Frame → Bool
  | [] => false
  | f :: rest => if f.topic == "yak.create" then true else has_yak rest

/-- Bootstrap section of initialize_store (lib.rs lines 100-144): if no
frame with the sentinel topic exists, append one genesis frame; an append
failure is surfaced with its message (fatal to startup in the caller); the
emit of the genesis frame is fire-and-forget (failure only logged, lines
135-137) and does not touch the store. -/
def initialize_store (appendErr : Option String) (st : Store) (freshId : Nat) :
    Except String Store :=
  if has_yak st.log then Except.ok st
  else
    match appendErr with
    | some e => Except.error ("Failed to append yak: " ++ e)
    | none => Except.ok { st with log := st.log ++ [yak_frame freshId] }

/-- Iterated initialization against the same store within one process, with
fresh ids drawn from the supply ids, in the failure-free environment. -/
def init_iter (ids : Nat → Nat) : Nat → Store → Store
  | 0, st => st
  | n + 1, st =>
    match initialize_store none (init_iter ids n st) (ids n) with
    | Except.ok st2 => st2
    | Except.error _ => init_iter ids n st

/-- A fresh store: no CAS entries, no frames. -/
def empty_store : Store := ⟨[], []⟩

/-- Number of frames in the log with the sentinel topic. -/
def count_yak (log : List Frame) : Nat :=
  (log.filter (fun f => f.topic == "yak.create")).length

/-- CAS contents after the CAS-insert step of append_event: unchanged for
empty content, otherwise the insert of the content bytes. -/
def event_cas (request : AppendRequest) (cas : List Bytes) : List Bytes :=
  if request.content = "" then cas
  else (cas_insert cas (Bytes.ofString request.content)).2

/-- The frame a successful append_event call appends: hash none for empty
content, otherwise the integrity key of the content bytes. -/
def event_frame (request : AppendRequest) (frameId : Nat) : Frame :=
  mk_frame request frameId
    (if request.content = "" then none else some ⟨Bytes.ofString request.content⟩)

/-- A sample append request with non-empty content. -/
def req_hello : AppendRequest := ⟨"user.note", "hello", none⟩

/-- The replay streamer stream_existing_events (lib.rs lines 160-178):
forward each frame of the snapshot read to the subscriber sink in log
order; emitRes gives the outcome of each emit (none is success), and a
failing emit aborts the stream with its error.  Returns the Rust result of
the function together with the frames emitted to the sink. -/
def stream_existing_events (emitRes : Frame → Option String) :
    List Frame → List Frame → Except String Unit × List Frame
  | [], emitted => (Except.ok (), emitted)
  | f :: rest, emitted =>
    match emitRes f with
    | some e => (Except.error e, emitted)
    | none => stream_existing_events emitRes rest (emitted ++ [f])

theorem mem_cas_insert_self (cas : List Bytes) (b : Bytes) :
    b ∈ (cas_insert cas b).2 := by
  by_cases hb : b ∈ cas <;> simp [cas_insert, hb]

theorem append_event_allOk_eq (st : Store) (em : List Frame)
    (request : AppendRequest) (frameId : Nat) :
    append_event allOkEnv st em request frameId =
      (Except.ok (toString frameId),
       ⟨event_cas request st.cas, st.log ++ [event_frame request frameId]⟩,
       em ++ [event_frame request frameId]) := by
  by_cases hc : request.content = "" <;>
    simp [append_event, append_stage, emit_stage, allOkEnv, event_cas, event_frame, cas_insert, hc]

theorem append_event_emitFail_eq (e : String) (st : Store) (em : List Frame)
    (request : AppendRequest) (frameId : Nat) :
    append_event ⟨none, none, some e⟩ st em request frameId =
      (Except.error ("Failed to emit frame: " ++ e),
       ⟨event_cas request st.cas, st.log ++ [event_frame request frameId]⟩,
       em) := by
  by_cases hc : request.content = "" <;>
    simp [append_event, append_stage, emit_stage, event_cas, event_frame, cas_insert, hc]

theorem append_event_ok_inv (env : Env) (st : Store) (em : List Frame)
    (request : AppendRequest) (frameId : Nat) (s : String)
    (h : (append_event env st em request frameId).1 = Except.ok s) :
    append_event env st em request frameId =
      (Except.ok (toString frameId),
       ⟨event_cas request st.cas, st.log ++ [event_frame request frameId]⟩,
       em ++ [event_frame request frameId]) := by
  rcases env with ⟨ci, ae, ee⟩
  by_cases hc : request.content = "" <;>
    rcases ci with _ | c <;> rcases ae with _ | a <;> rcases ee with _ | e <;>
      simp_all [append_event, append_stage, emit_stage, event_cas, event_frame, cas_insert, hc]

/-- C1 counterexample: with content "hello" appended successfully (the frame
is in the log) and the emit to the subscriber sink failing, append_event
returns the emit error, not the id of the appended frame. -/
theorem append_event_emit_failure_cex :
    (append_event ⟨none, none, some "event loop closed"⟩ empty_store [] req_hello 7).2.1.log =
      [event_frame req_hello 7] ∧
    (append_event ⟨none, none, some "event loop closed"⟩ empty_store [] req_hello 7).1 =
      Except.error "Failed to emit frame: event loop closed" ∧
    (append_event ⟨none, none, some "event loop closed"⟩ empty_store [] req_hello 7).1 ≠
      Except.ok (toString 7) := by
  refine ⟨?_, ?_, ?_⟩ <;>
    simp [append_event, append_stage, emit_stage, event_frame, mk_frame, cas_insert,
      req_hello, empty_store]

/-- C1 amended: when every step up to and including the log append succeeds
but the emit to the subscriber sink fails, append_event surfaces the emit
failure as a command-level error; the frame nevertheless remains appended
to the log and nothing is recorded as emitted. -/
theorem append_event_emit_failure_surfaced (e : String) (st : Store) (em : List Frame)
    (request : AppendRequest) (frameId : Nat) :
    (append_event ⟨none, none, some e⟩ st em request frameId).1 =
      Except.error ("Failed to emit frame: " ++ e) ∧
    (append_event ⟨none, none, some e⟩ st em request frameId).2.1.log =
      st.log ++ [event_frame request frameId] ∧
    (append_event ⟨none, none, some e⟩ st em request frameId).2.2 = em := by
  rw [append_event_emitFail_eq]
  exact ⟨rfl, rfl, rfl⟩

/-- C7 counterexample: a call with an empty topic succeeds and appends a
frame whose topic is the empty string. -/
theorem append_event_empty_topic_cex :
    (append_event allOkEnv empty_store [] ⟨"", "x", none⟩ 3).1 = Except.ok "3" ∧
    (append_event allOkEnv empty_store [] ⟨"", "x", none⟩ 3).2.1.log =
      [{ id := 3, contextId := 0, topic := "", hash := some ⟨Bytes.ofString "x"⟩,
         meta := none, ttl := none }] := by
  refine ⟨?_, ?_⟩ <;>
    simp [append_event, append_stage, emit_stage, allOkEnv, mk_frame, cas_insert,
      empty_store, ZERO_CONTEXT]
  decide

/-- C7 amended: append_event performs no topic validation: the appended
frame carries exactly the topic of the request, including the empty string,
so the non-empty-topic constraint is an unchecked caller obligation. -/
theorem append_event_topic_unvalidated (st : Store) (em : List Frame)
    (c : String) (meta : Option (List (String × JsonValue))) (i : Nat) :
    (append_event allOkEnv st em ⟨"", c, meta⟩ i).1 = Except.ok (toString i) ∧
    (append_event allOkEnv st em ⟨"", c, meta⟩ i).2.1.log =
      st.log ++ [event_frame ⟨"", c, meta⟩ i] ∧
    (event_frame ⟨"", c, meta⟩ i).topic = "" := by
  rw [append_event_allOk_eq]
  exact ⟨rfl, rfl, rfl⟩

/-- C9: if the CAS insert step inside append_event fails (content being
non-empty, so the insert actually runs), the command returns the insert
error and the whole state is untouched: same store (log and CAS) and
nothing emitted. -/
theorem append_event_cas_failure_atomic (e : String) (st : Store) (em : List Frame)
    (request : AppendRequest) (frameId : Nat) (hc : request.content ≠ "") :
    append_event ⟨some e, none, none⟩ st em request frameId =
      (Except.error ("Failed to insert content: " ++ e), st, em) := by
  simp [append_event, hc]

/-- C9 witness: the atomicity theorem applied at a concrete non-empty
request and a concrete failing-insert environment. -/
theorem append_event_cas_failure_atomic_witness :
    req_hello.content ≠ "" ∧
    append_event ⟨some "disk full", none, none⟩ empty_store [] req_hello 7 =
      (Except.error ("Failed to insert content: " ++ "disk full"), empty_store, []) :=
  ⟨by decide, append_event_cas_failure_atomic "disk full" empty_store [] req_hello 7 (by decide)⟩

/-- C10: get_cas_content is read-only: whatever the input hash string and
whether the call succeeds or fails, the store (frame log and CAS contents)
is returned unchanged. -/
theorem get_cas_content_preserves_store (st : Store) (h : HashStr) :
    (get_cas_content st h).2 = st := by
  unfold get_cas_content
  split
  · rfl
  · split
    · rfl
    · split <;> rfl

/-- C4: for every successful append_event call, the returned value is the id
of the frame appended at the end of the log; that frame has hash none
exactly when the request content was empty, and for non-empty content its
hash resolves through get_cas_content to exactly that content. -/
theorem append_event_hash_none_iff_empty (env : Env) (st : Store) (em : List Frame)
    (request : AppendRequest) (frameId : Nat) (s : String)
    (h : (append_event env st em request frameId).1 = Except.ok s) :
    s = toString frameId ∧
    (append_event env st em request frameId).2.1.log =
      st.log ++ [event_frame request frameId] ∧
    (event_frame request frameId).id = frameId ∧
    ((event_frame request frameId).hash = none ↔ request.content = "") ∧
    (request.content ≠ "" →
      ∃ h', (event_frame request frameId).hash = some h' ∧
        (get_cas_content (append_event env st em request frameId).2.1
            (HashStr.wellFormed h')).1 = Except.ok request.content) := by
  have heq := append_event_ok_inv env st em request frameId s h
  rw [heq] at h ⊢
  refine ⟨by simpa using h.symm, rfl, rfl, ?_, ?_⟩
  · by_cases hc : request.content = "" <;> simp [event_frame, mk_frame, hc]
  · intro hc
    refine ⟨⟨Bytes.ofString request.content⟩, by simp [event_frame, mk_frame, hc], ?_⟩
    have hmem : Bytes.ofString request.content ∈ event_cas request st.cas := by
      simpa [event_cas, hc] using
        mem_cas_insert_self st.cas (Bytes.ofString request.content)
    simp [get_cas_content, parse_integrity, cas_read, bytes_to_string, hmem]

/-- C4 witness: the theorem applied to a concrete successful call appending
the content "hello" with id 7. -/
theorem append_event_hash_none_iff_empty_witness :
    (append_event allOkEnv empty_store [] req_hello 7).1 = Except.ok "7" ∧
    ("7" = toString 7 ∧
     (append_event allOkEnv empty_store [] req_hello 7).2.1.log =
       empty_store.log ++ [event_frame req_hello 7] ∧
     (event_frame req_hello 7).id = 7 ∧
     ((event_frame req_hello 7).hash = none ↔ req_hello.content = "") ∧
     (req_hello.content ≠ "" →
       ∃ h', (event_frame req_hello 7).hash = some h' ∧
         (get_cas_content (append_event allOkEnv empty_store [] req_hello 7).2.1
             (HashStr.wellFormed h')).1 = Except.ok req_hello.content)) := by
  have hok : (append_event allOkEnv empty_store [] req_hello 7).1 = Except.ok "7" := by
    rw [append_event_allOk_eq]; rfl
  exact ⟨hok, append_event_hash_none_iff_empty allOkEnv empty_store [] req_hello 7 "7" hok⟩

/-- C3: for every non-empty content c, appending it through append_event (in
the environment where every external call succeeds) and then reading the
hash of the appended frame back through get_cas_content returns exactly
c. -/
theorem append_event_readback_roundtrip (st : Store) (em : List Frame)
    (topic c : String) (meta : Option (List (String × JsonValue))) (i : Nat)
    (hc : c ≠ "") :
    ∃ f h', ((append_event allOkEnv st em ⟨topic, c, meta⟩ i).2.1).log = st.log ++ [f] ∧
      f.hash = some h' ∧
      (get_cas_content (append_event allOkEnv st em ⟨topic, c, meta⟩ i).2.1
          (HashStr.wellFormed h')).1 = Except.ok c := by
  refine ⟨event_frame ⟨topic, c, meta⟩ i, ⟨Bytes.ofString c⟩, ?_, ?_, ?_⟩
  · rw [append_event_allOk_eq]
  · simp [event_frame, mk_frame, hc]
  · rw [append_event_allOk_eq]
    have hmem : Bytes.ofString c ∈ event_cas ⟨topic, c, meta⟩ st.cas := by
      simpa [event_cas, hc] using mem_cas_insert_self st.cas (Bytes.ofString c)
    simp [get_cas_content, parse_integrity, cas_read, bytes_to_string, hmem]

/-- C3 witness: the round-trip theorem applied to the concrete non-empty
content "hello". -/
theorem append_event_readback_roundtrip_witness :
    "hello" ≠ "" ∧
    (∃ f h',
      ((append_event allOkEnv empty_store [] ⟨"user.note", "hello", none⟩ 7).2.1).log =
        empty_store.log ++ [f] ∧
      f.hash = some h' ∧
      (get_cas_content (append_event allOkEnv empty_store [] ⟨"user.note", "hello", none⟩ 7).2.1
          (HashStr.wellFormed h')).1 = Except.ok "hello") :=
  ⟨by decide, append_event_readback_roundtrip empty_store [] "user.note" "hello" none 7 (by decide)⟩

theorem has_yak_eq_true_iff (log : List Frame) :
    has_yak log = true ↔ 0 < count_yak log := by
  induction log with
  | nil => simp [has_yak, count_yak]
  | cons f rest ih =>
    cases ht : (f.topic == "yak.create") with
    | false => simpa [has_yak, count_yak, ht] using ih
    | true => simp [has_yak, count_yak, ht]

theorem count_yak_append (l1 l2 : List Frame) :
    count_yak (l1 ++ l2) = count_yak l1 + count_yak l2 := by
  simp [count_yak, List.filter_append]

theorem count_yak_yak_frame (i : Nat) : count_yak [yak_frame i] = 1 := by
  simp [count_yak, yak_frame]

/-- C5: starting from a fresh (empty) store, any positive number of runs of
the bootstrap section of initialize_store leaves exactly one frame with the
sentinel topic in the log, whatever fresh ids the runs draw. -/
theorem initialize_store_idempotent_sentinel (ids : Nat → Nat) (n : Nat) :
    count_yak (init_iter ids (n + 1) empty_store).log = 1 := by
  induction n with
  | zero =>
    simp [init_iter, initialize_store, empty_store, has_yak, count_yak, yak_frame]
  | succ n ih =>
    have hy : has_yak (init_iter ids (n + 1) empty_store).log = true := by
      rw [has_yak_eq_true_iff, ih]
      exact Nat.zero_lt_one
    have hpres : initialize_store none (init_iter ids (n + 1) empty_store) (ids (n + 1)) =
        Except.ok (init_iter ids (n + 1) empty_store) := by
      simp [initialize_store, hy]
    show count_yak
        (match initialize_store none (init_iter ids (n + 1) empty_store) (ids (n + 1)) with
         | Except.ok st2 => st2
         | Except.error _ => init_iter ids (n + 1) empty_store).log = 1
    rw [hpres]
    exact ih

theorem gcc_malformed (st : Store) (s : String) :
    (get_cas_content st (HashStr.malformed s)).1 =
      Except.error ("Invalid hash format: " ++ "invalid ssri string") := rfl

theorem gcc_absent (st : Store) (h0 : Integrity) (hm : h0.content ∉ st.cas) :
    (get_cas_content st (HashStr.wellFormed h0)).1 =
      Except.error ("Failed to read content: " ++ "content not found") := by
  simp [get_cas_content, parse_integrity, cas_read, hm]

theorem gcc_present_valid (st : Store) (s0 : String)
    (hm : Bytes.ofString s0 ∈ st.cas) :
    (get_cas_content st (HashStr.wellFormed ⟨Bytes.ofString s0⟩)).1 = Except.ok s0 := by
  simp [get_cas_content, parse_integrity, cas_read, bytes_to_string, hm]

theorem gcc_present_invalid (st : Store) (t : String)
    (hm : Bytes.invalid t ∈ st.cas) :
    (get_cas_content st (HashStr.wellFormed ⟨Bytes.invalid t⟩)).1 =
      Except.error ("Invalid UTF-8 content: " ++ "invalid utf-8 sequence") := by
  simp [get_cas_content, parse_integrity, cas_read, bytes_to_string, hm]

/-- C6: the three failure kinds of get_cas_content characterise exactly the
three failure conditions, and the three error messages are pairwise
distinct, so a caller can distinguish them; in particular a malformed hash
yields the parse message and never the read (I/O) message. -/
theorem get_cas_content_error_taxonomy (st : Store) (h : HashStr) :
    ((get_cas_content st h).1 =
        Except.error ("Invalid hash format: " ++ "invalid ssri string") ↔
      is_malformed h = true) ∧
    ((get_cas_content st h).1 =
        Except.error ("Failed to read content: " ++ "content not found") ↔
      hash_entry_absent st h = true) ∧
    ((get_cas_content st h).1 =
        Except.error ("Invalid UTF-8 content: " ++ "invalid utf-8 sequence") ↔
      hash_entry_undecodable st h = true) ∧
    ("Invalid hash format: " ++ "invalid ssri string" ≠
      "Failed to read content: " ++ "content not found") ∧
    ("Invalid hash format: " ++ "invalid ssri string" ≠
      "Invalid UTF-8 content: " ++ "invalid utf-8 sequence") ∧
    ("Failed to read content: " ++ "content not found" ≠
      "Invalid UTF-8 content: " ++ "invalid utf-8 sequence") := by
  refine ⟨?_, ?_, ?_, by decide, by decide, by decide⟩ <;>
    [skip; skip; skip] <;>
  · rcases h with ⟨⟨b⟩⟩ | s
    · by_cases hm : b ∈ st.cas
      · rcases b with s0 | t
        · rw [gcc_present_valid st s0 hm]
          simp [is_malformed, hash_entry_absent, hash_entry_undecodable, hm]
        · rw [gcc_present_invalid st t hm]
          simp [is_malformed, hash_entry_absent, hash_entry_undecodable, hm]
          try decide
      · rw [gcc_absent st ⟨b⟩ hm]
        simp [is_malformed, hash_entry_absent, hash_entry_undecodable, hm]
        try decide
    · rw [gcc_malformed st s]
      simp [is_malformed, hash_entry_absent, hash_entry_undecodable]
      try decide

theorem stream_all_ok (emitRes : Frame → Option String) (log em : List Frame)
    (h : ∀ f ∈ log, emitRes f = none) :
    stream_existing_events emitRes log em = (Except.ok (), em ++ log) := by
  induction log generalizing em with
  | nil => simp [stream_existing_events]
  | cons f rest ih =>
    have hf : emitRes f = none := h f (List.mem_cons_self f rest)
    have hrest : ∀ g ∈ rest, emitRes g = none := fun g hg => h g (List.mem_cons_of_mem f hg)
    simp [stream_existing_events, hf, ih (em ++ [f]) hrest]

theorem stream_ok_forwards (emitRes : Frame → Option String) (log em : List Frame)
    (h : (stream_existing_events emitRes log em).1 = Except.ok ()) :
    (stream_existing_events emitRes log em).2 = em ++ log := by
  induction log generalizing em with
  | nil => simp [stream_existing_events]
  | cons f rest ih =>
    cases hf : emitRes f with
    | some e => simp [stream_existing_events, hf] at h
    | none =>
      have h2 : (stream_existing_events emitRes rest (em ++ [f])).1 = Except.ok () := by
        simpa [stream_existing_events, hf] using h
      have := ih (em ++ [f]) h2
      simpa [stream_existing_events, hf] using this

/-- C8: when the replay stream completes successfully, the frames forwarded
to the sink are exactly the previously emitted ones followed by every frame
of the log snapshot, in log order, each exactly once. -/
theorem stream_existing_events_order_exact (emitRes : Frame → Option String)
    (log em : List Frame)
    (h : (stream_existing_events emitRes log em).1 = Except.ok ()) :
    (stream_existing_events emitRes log em).2 = em ++ log :=
  stream_ok_forwards emitRes log em h

/-- C8 witness: the order-exactness theorem applied to a concrete two-frame
log with an always-succeeding sink. -/
theorem stream_existing_events_order_exact_witness :
    (stream_existing_events (fun _ => none) [yak_frame 1, yak_frame 2] []).1 =
      Except.ok () ∧
    (stream_existing_events (fun _ => none) [yak_frame 1, yak_frame 2] []).2 =
      [] ++ [yak_frame 1, yak_frame 2] :=
  ⟨rfl, stream_existing_events_order_exact (fun _ => none) [yak_frame 1, yak_frame 2] [] rfl⟩

/-- C2 counterexample: two successful replay runs that forward different
numbers of frames (one and zero) return the same result value, Except.ok
with the unit value, so the returned value is not the count of frames
forwarded: the source returns Result of unit, counting only for a log
line. -/
theorem stream_existing_events_unit_result_cex :
    (stream_existing_events (fun _ => none) [yak_frame 1] []).2.length = 1 ∧
    (stream_existing_events (fun _ => none) [] []).2.length = 0 ∧
    (stream_existing_events (fun _ => none) [yak_frame 1] []).1 = Except.ok () ∧
    (stream_existing_events (fun _ => none) [yak_frame 1] []).1 =
      (stream_existing_events (fun _ => none) [] []).1 :=
  ⟨rfl, rfl, rfl, rfl⟩

/-- C2 amended: the replay operation has contract replay(sink) to Result of
unit: on success it returns the unit value after forwarding every frame of
the log to the sink (the count of forwarded frames is tracked internally
only for logging and is not returned). -/
theorem stream_existing_events_returns_unit (log em : List Frame) :
    (stream_existing_events (fun _ => none) log em).1 = Except.ok () ∧
    (stream_existing_events (fun _ => none) log em).2.length =
      em.length + log.length := by
  have h := stream_all_ok (fun _ => none) log em (fun _ _ => rfl)
  rw [h]
  simp
